import Mathlib

/-!
Shallow embedding of the aura location-resolution core
(`src/aura/uri_handlers/base.py` and the handler-resolution call sites in
`src/aura/commands.py`).

Python strings are modelled as lists of characters (`Str`), Python `dict`s as
ordered association lists with first-occurrence semantics (`Dict`), `pathlib`
paths as their string form, and the filesystem as a finite map from paths to
nodes.  External collaborators of the core (libmagic, `mimetypes`,
`find_imports`, `lookup_lines`, `get_severity`, the configured maximum depth)
are passed in as explicit parameters, mirroring the fact that they are
imported, not defined, by the code under analysis.
-/

/-- Python `str`, as a list of characters. -/
abbrev Str := List Char

/-- View a Lean string literal as a Python string value. -/
def chars (s : String) : Str := s.data

/-- Values stored in a scan location's metadata mapping.  `vNone` is Python's
`None`, `vTags` a set of strings, `vOther` an opaque payload standing for any
value the core never inspects (analyzer selections, custom flags, ...). -/
inductive MetaVal where
  | vStr : Str → MetaVal
  | vNat : Nat → MetaVal
  | vNone : MetaVal
  | vTags : List Str → MetaVal
  | vImports : List Str → MetaVal
  | vOther : Nat → MetaVal
  deriving DecidableEq

/-- A Python `dict` with string keys: an association list where the first
occurrence of a key is the binding (the constructions below never introduce
duplicate keys). -/
abbrev Dict := List (String × MetaVal)

/-- Python `d[k]` / `d.get(k)` as an optional lookup. -/
def dget? : Dict → String → Option MetaVal
  | [], _ => none
  | (k, v) :: rest, key => if k = key then some v else dget? rest key

/-- Python `d[k] = v`: overwrite the binding in place, append if absent. -/
def dset : Dict → String → MetaVal → Dict
  | [], key, val => [(key, val)]
  | (k, v) :: rest, key, val =>
    if k = key then (k, val) :: rest else (k, v) :: dset rest key val

/-- Python `d.pop(k, None)`: drop the binding for `k` if present. -/
def dpop : Dict → String → Dict
  | [], _ => []
  | (k, v) :: rest, key => if k = key then rest else (k, v) :: dpop rest key

/-- The keys of a dict, in order. -/
def dkeys (d : Dict) : List String := d.map Prod.fst

/-- Python set membership for the tag sets. -/
def smem : List Str → Str → Bool
  | [], _ => false
  | a :: r, x => if a = x then true else smem r x

/-- Python `a | b` on the tag sets (`set.__ior__`): keep `a`, append the
elements of `b` not already present. -/
def sunion (a b : List Str) : List Str := a ++ b.filter (fun x => !(smem a x))

/-- Python `x in s` on the cleanup set of paths. -/
def scontains : List Str → Str → Bool
  | [], _ => false
  | a :: r, x => if a = x then true else scontains r x

/-- Python `s.remove(x)` on the cleanup set of paths. -/
def serase : List Str → Str → List Str
  | [], _ => []
  | a :: r, x => if a = x then r else a :: serase r x

/-- A filesystem node: a regular file with its byte content, or a directory. -/
inductive FSNode where
  | file : List Nat → FSNode
  | dir : FSNode
  deriving DecidableEq

/-- The filesystem: the finite set of existing paths with their nodes. -/
abbrev FS := List (Str × FSNode)

/-- Resolve a path in the filesystem. -/
def FS.lookup : FS → Str → Option FSNode
  | [], _ => none
  | e :: rest, p => if e.1 = p then some e.2 else FS.lookup rest p

/-- Python `Path.is_file()`. -/
def FS.isFile (fs : FS) (p : Str) : Bool :=
  match FS.lookup fs p with
  | some (.file _) => true
  | _ => false

/-- Python `Path.is_dir()`. -/
def FS.isDir (fs : FS) (p : Str) : Bool :=
  match FS.lookup fs p with
  | some .dir => true
  | _ => false

/-- Python `Path.exists()`. -/
def FS.fexists (fs : FS) (p : Str) : Bool := (FS.lookup fs p).isSome

/-- Python `shutil.rmtree(p)`: remove `p` and every path below it. -/
def rmtree : FS → Str → FS
  | [], _ => []
  | e :: rest, p =>
    if e.1 = p ∨ (p ++ chars "/").isPrefixOf e.1 then rmtree rest p
    else e :: rmtree rest p

/-- The sixteen hexadecimal digits, `0`–`9` then `a`–`f`, built from their
character codes. -/
def hexChars : List Char :=
  (List.range 16).map (fun n => if n < 10 then Char.ofNat (48 + n) else Char.ofNat (87 + n))

/-- One hexadecimal digit. -/
def toHexDigit (n : Nat) : Char := hexChars.getD (n % 16) '0'

/-- Render a number as exactly `w` hexadecimal characters (big-endian). -/
def natToHex : Nat → Nat → Str
  | 0, _ => []
  | w + 1, v => toHexDigit (v / 16 ^ w) :: natToHex w v

/-- Every character of the string is a hexadecimal digit. -/
def isHexStr : Str → Bool
  | [] => true
  | c :: r => if c ∈ hexChars then isHexStr r else false

/-- Modelled external library (`hashlib`/`tlsh`): one byte-mixing step of a
streaming digest.  The concrete mixing function is irrelevant to the code
under analysis; only the streaming interface (init/update/finalize) and the
fixed output width of each algorithm matter. -/
def hstep (mult seed s b : Nat) : Nat := s * mult + b + seed

/-- The joint state of the five streaming hashers that
`ScanLocation.__compute_hashes` updates in a single pass: the running TLSH
input length and the five accumulators. -/
structure HashState where
  tlen : Nat
  tl : Nat
  md5 : Nat
  sha1 : Nat
  sha256 : Nat
  sha512 : Nat
  deriving DecidableEq

/-- Initial hasher states. -/
def initHash : HashState := ⟨0, 0, 1, 2, 3, 4⟩

/-- Feed one buffer to all five hashers (the body of the read loop in
`ScanLocation.__compute_hashes`). -/
def updAll (s : HashState) (buf : List Nat) : HashState :=
  { tlen := s.tlen + buf.length
    tl := buf.foldl (hstep 37 11) s.tl
    md5 := buf.foldl (hstep 31 5) s.md5
    sha1 := buf.foldl (hstep 33 7) s.sha1
    sha256 := buf.foldl (hstep 35 9) s.sha256
    sha512 := buf.foldl (hstep 39 13) s.sha512 }

/-- The chunked read loop `fd.read(4096)`, fuel-encoded: `fuel` bounds the
number of reads and is instantiated with the file length. -/
def chunksGo : Nat → List Nat → List (List Nat)
  | 0, _ => []
  | _, [] => []
  | fuel + 1, l => l.take 4096 :: chunksGo fuel (l.drop 4096)

/-- Split a file's content into the 4096-byte buffers the read loop sees. -/
def chunks (l : List Nat) : List (List Nat) := chunksGo l.length l

/-- Reference (non-chunked) digest of a whole content, per algorithm. -/
def md5Hex (content : List Nat) : Str := natToHex 32 (updAll initHash content).md5

/-- Reference 160-bit digest. -/
def sha1Hex (content : List Nat) : Str := natToHex 40 (updAll initHash content).sha1

/-- Reference 256-bit digest. -/
def sha256Hex (content : List Nat) : Str := natToHex 64 (updAll initHash content).sha256

/-- Reference 512-bit digest. -/
def sha512Hex (content : List Nat) : Str := natToHex 128 (updAll initHash content).sha512

/-- Reference TLSH digest (70 hex characters, as produced by the external
`tlsh` library). -/
def tlshHex (content : List Nat) : Str := natToHex 70 (updAll initHash content).tl

/-- `ScanLocation.__compute_hashes`: stream the file content through the five
hashers in 4096-byte buffers, then store the digests in the metadata.
`tl.final()` raises `ValueError` when fewer than 256 bytes were fed (the
swallowed optional-step failure), so the `tlsh` key is only set for contents
of at least 256 bytes. -/
def computeHashesMeta (content : List Nat) (md : Dict) : Dict :=
  let st := (chunks content).foldl updAll initHash
  let md := if st.tlen < 256 then md else dset md "tlsh" (.vStr (natToHex 70 st.tl))
  let md := dset md "md5" (.vStr (natToHex 32 st.md5))
  let md := dset md "sha1" (.vStr (natToHex 40 st.sha1))
  let md := dset md "sha256" (.vStr (natToHex 64 st.sha256))
  dset md "sha512" (.vStr (natToHex 128 st.sha512))

/-- The external collaborators consulted during `ScanLocation.__post_init__`:
`magic.from_file(..., mime=True)`, `mimetypes.guess_type(...)[0]` and
`find_imports.find_imports` (where `none` models a raised
`PythonExecutorError`). -/
structure Externals where
  magicMime : Str → Str
  guessType : Str → Option Str
  findImports : Str → Dict → Option (List Str)

/-- The first half of `ScanLocation.strip`: elide the configured strip prefix
(plus one path separator when the prefix does not already end in one).
Python truthiness: an empty strip path disables the branch. -/
def stripCore (strip_path : Str) (target : Str) : Str :=
  if strip_path ≠ [] ∧ strip_path.isPrefixOf target then
    target.drop (strip_path.length + (if strip_path.getLast? = some '/' then 0 else 1))
  else target

/-- `ScanLocation.strip`: strip the prefix, then prepend `<parent>$` when a
parent is configured (non-empty, per Python truthiness) and the
possibly-already-stripped target does not already start with it. -/
def stripFn (strip_path : Str) (parent : Option Str) (target : Str) : Str :=
  match parent with
  | none => stripCore strip_path target
  | some p =>
    if p ≠ [] then
      (if p.isPrefixOf (stripCore strip_path target) then stripCore strip_path target
       else p ++ '$' :: stripCore strip_path target)
    else stripCore strip_path target

/-- The `ScanLocation` dataclass.  `location` is the path (the dataclass
normalizes `str` input to a `Path`; both render to the same string, which is
what the model stores), `size` is only assigned for files. -/
structure ScanLocation where
  location : Str
  metadata : Dict
  cleanup : Bool
  parent : Option Str
  strip_path : Str
  size : Option Nat
  deriving DecidableEq

/-- `ScanLocation.__str__` / the normalized display path. -/
def strOf (loc : ScanLocation) : Str := stripFn loc.strip_path loc.parent loc.location

/-- `ScanLocation.strip` as a method on the location. -/
def ScanLocation.strip (loc : ScanLocation) (target : Str) : Str :=
  stripFn loc.strip_path loc.parent target

/-- Python `self.metadata.get("depth") is None`: the depth key is missing or
bound to `None`. -/
def depthIsNone (md : Dict) : Bool :=
  match dget? md "depth" with
  | none => true
  | some .vNone => true
  | some _ => false

/-- The unconditional metadata seeding of `ScanLocation.__post_init__`:
store the canonical path under `"path"`, the normalized display string under
`"normalized_path"`, overwrite `"tags"` with a fresh empty set, and default a
missing (or `None`) depth to 0 (with a warning in the source). -/
def postInitCore (location : Str) (strip_path : Str) (parent : Option Str)
    (metadata : Dict) : Dict :=
  let md := dset metadata "path" (.vStr location)
  let md := dset md "normalized_path" (.vStr (stripFn strip_path parent location))
  let md := dset md "tags" (.vTags [])
  if depthIsNone md then dset md "depth" (.vNat 0) else md

/-- The two MIME assignments of `__post_init__`: content-based detection,
then extension-based fallback for generic types (which may yield `None`). -/
def mimeStep (ext : Externals) (location : Str) (md : Dict) : Dict :=
  let md := dset md "mime" (.vStr (ext.magicMime location))
  match dget? md "mime" with
  | some (.vStr m) =>
    if m = chars "text/plain" ∨ m = chars "application/octet-stream" ∨ m = chars "text/none" then
      dset md "mime" (match ext.guessType location with
        | some g => .vStr g
        | none => .vNone)
    else md
  | _ => md

/-- `ScanLocation.is_python_source_code`. -/
def isPySource (md : Dict) : Prop :=
  ∃ m, dget? md "mime" = some (.vStr m) ∧
    (m = chars "text/x-python" ∨ m = chars "text/x-script.python")

instance (md : Dict) : Decidable (isPySource md) := by
  unfold isPySource
  match h : dget? md "mime" with
  | some (.vStr m) =>
    refine decidable_of_iff
      (m = chars "text/x-python" ∨ m = chars "text/x-script.python") ?_
    constructor
    · intro hm; exact ⟨m, rfl, hm⟩
    · rintro ⟨m', hm', hor⟩; cases hm'; exact hor
  | some (.vNat _) => exact .isFalse (by rintro ⟨m, hm, _⟩; cases hm)
  | some .vNone => exact .isFalse (by rintro ⟨m, hm, _⟩; cases hm)
  | some (.vTags _) => exact .isFalse (by rintro ⟨m, hm, _⟩; cases hm)
  | some (.vImports _) => exact .isFalse (by rintro ⟨m, hm, _⟩; cases hm)
  | some (.vOther _) => exact .isFalse (by rintro ⟨m, hm, _⟩; cases hm)
  | none => exact .isFalse (by rintro ⟨m, hm, _⟩; cases hm)

/-- The optional import-enumeration step of `__post_init__`: only for Python
source files whose metadata does not carry a `no_imports` key; a raised
`PythonExecutorError` (`none`) and an empty result are both swallowed. -/
def importsStep (ext : Externals) (location : Str) (md : Dict) : Dict :=
  if isPySource md ∧ dget? md "no_imports" = none then
    match ext.findImports location md with
    | some imports => if imports ≠ [] then dset md "py_imports" (.vImports imports) else md
    | none => md
  else md

/-- `ScanLocation` construction (`__init__` plus `__post_init__`): seed the
metadata, then — only when the path is an existing regular file — compute the
digests in one chunked pass, record the file size, detect the MIME type and
optionally enumerate imports.  Directories and missing paths skip the whole
fingerprinting block and keep the caller-supplied `size`. -/
def mkScanLocation (ext : Externals) (fs : FS) (location : Str) (metadata : Dict)
    (cleanup : Bool) (parent : Option Str) (strip_path : Str) (size : Option Nat) :
    ScanLocation :=
  let md := postInitCore location strip_path parent metadata
  match FS.lookup fs location with
  | some (.file content) =>
    let md := computeHashesMeta content md
    let md := mimeStep ext location md
    let md := importsStep ext location md
    { location := location, metadata := md, cleanup := cleanup, parent := parent
      strip_path := strip_path, size := some content.length }
  | _ =>
    { location := location, metadata := md, cleanup := cleanup, parent := parent
      strip_path := strip_path, size := size }

/-- `ScanLocation.create_child`.  `metadata = none` is the Python default: the
parent metadata is deep-copied and the depth bumped (`none` is returned when
the parent has no numeric depth, where Python would raise).  The `parent`,
`strip_path` and `cleanup` keyword overrides are honored when supplied;
otherwise the parent link skips directory parents and the strip path restarts
at children living under the temporary-file root `tmpdir`. -/
def create_child (ext : Externals) (fs : FS) (tmpdir : Str) (loc : ScanLocation)
    (new_location : Str) (metadata : Option Dict) (parentKw : Option (Option Str))
    (stripKw : Option Str) (cleanupKw : Bool) : Option ScanLocation :=
  let md? : Option Dict :=
    match metadata with
    | some m => some m
    | none =>
      match dget? loc.metadata "depth" with
      | some (.vNat n) => some (dset loc.metadata "depth" (.vNat (n + 1)))
      | _ => none
  match md? with
  | none => none
  | some md =>
    let md := dpop (dpop (dpop md "mime") "interpreter_path") "interpreter_name"
    let md := dset md "analyzers"
      (match dget? loc.metadata "analyzers" with
       | some v => v
       | none => .vNone)
    let parent : Option Str :=
      match parentKw with
      | some p => p
      | none => if FS.isDir fs loc.location then loc.parent else some loc.location
    let strip_path : Str :=
      match stripKw with
      | some sp => sp
      | none => if tmpdir.isPrefixOf new_location then new_location else loc.strip_path
    some (mkScanLocation ext fs new_location md cleanupKw parent strip_path none)

/-- A chain of default-metadata `create_child` derivations, one per path. -/
def childChain (ext : Externals) (fs : FS) (tmpdir : Str) (loc : ScanLocation) :
    List Str → Option ScanLocation
  | [] => some loc
  | p :: ps =>
    match create_child ext fs tmpdir loc p none none none false with
    | some c => childChain ext fs tmpdir c ps
    | none => none

/-- Modelled from the spec: the external `Detection` entity consumed by the
core (`aura.analyzers.detections` is outside the analyzed sources).  It
carries a message, a deterministic signature, the nullable fields
`location`, `line_no`, `line`, `scan_location`, `_metadata` (here
`dmetadata`) and `_severity` (here `dseverity`), a tag set and an `extra`
mapping, exactly the fields the core reads and writes. -/
structure Detection where
  message : Str
  signature : Str
  location : Option Str
  line_no : Option Nat
  line : Option Str
  tags : List Str
  scan_location : Option ScanLocation
  dmetadata : Option Dict
  dseverity : Option Int
  extra : List (String × Str)
  deriving DecidableEq

/-- The tag set stored in a location's metadata (always present on
constructed locations, where `__post_init__` seeds it). -/
def locTags (loc : ScanLocation) : List Str :=
  match dget? loc.metadata "tags" with
  | some (.vTags ts) => ts
  | _ => []

/-- The per-detection body of `ScanLocation.post_analysis`:  merge the
location's tags, rewrite the raw location string through the normalizer (or
set the normalized display path when absent), attach the back-reference, the
source line (`fl` models `lookup_lines` on this location's file), the
metadata and — last, on the already-enriched detection — the severity
(`sev` models the external `get_severity`). -/
def postOne (loc : ScanLocation) (fl : Nat → Option Str) (sev : Detection → Int)
    (d : Detection) : Detection :=
  let d1 : Detection :=
    { d with
      tags := sunion d.tags (locTags loc)
      location := some (match d.location with
        | none => strOf loc
        | some l => loc.strip l)
      scan_location := some (d.scan_location.getD loc)
      line := (match d.line with
        | none =>
          match d.line_no with
          | some n => fl n
          | none => none
        | some l => some l)
      dmetadata := some (d.dmetadata.getD loc.metadata) }
  match d1.dseverity with
  | none => { d1 with dseverity := some (sev d1) }
  | some _ => d1

/-- `ScanLocation.post_analysis` over a batch of detections. -/
def post_analysis (loc : ScanLocation) (fl : Nat → Option Str)
    (sev : Detection → Int) (ds : List Detection) : List Detection :=
  ds.map (postOne loc fl sev)

/-- The `DataProcessing` detection synthesized by
`ScanLocation.should_continue` when the depth limit is exceeded, before its
enrichment: a max-depth message, the location path, and the deterministic
signature `data_processing#max_depth#<normalized path>`. -/
def maxDepthDetection (loc : ScanLocation) : Detection :=
  { message := chars "Maximum processing depth reached"
    signature := chars "data_processing#max_depth#" ++ strOf loc
    location := some loc.location
    line_no := none
    line := none
    tags := []
    scan_location := none
    dmetadata := none
    dseverity := none
    extra := [("reason", chars "max_depth"), ("location", strOf loc)] }

/-- The tagged outcome of `ScanLocation.should_continue`: `True`, a halting
`Detection`, or the `KeyError` Python raises when the metadata carries no
depth (unreachable for constructed locations). -/
inductive ContinueResult where
  | cont : ContinueResult
  | halt : Detection → ContinueResult
  | error : ContinueResult
  deriving DecidableEq

/-- `ScanLocation.should_continue`: compare the metadata depth against the
configured maximum (`max-depth`, default 5); beyond it, synthesize the
max-depth `DataProcessing` detection, route it through this location's own
`post_analysis`, and return it in place of `True`. -/
def should_continue (fl : Nat → Option Str) (sev : Detection → Int)
    (maxDepth : Nat) (loc : ScanLocation) : ContinueResult :=
  match dget? loc.metadata "depth" with
  | some (.vNat depth) =>
    if depth > maxDepth then
      .halt ((post_analysis loc fl sev [maxDepthDetection loc]).headD (maxDepthDetection loc))
    else .cont
  | _ => .error

/-- A registered URI handler class: the model keeps the one attribute the
resolution loop consults, its `scheme`. -/
structure HandlerCls where
  scheme : Str
  deriving DecidableEq

/-- The scheme extracted by `urllib.parse.urlparse`. -/
structure ParsedURI where
  scheme : Str
  deriving DecidableEq

/-- Outcome of `URIHandler.from_uri`: an instantiated handler, or the
`TypeError` Python raises when no scheme matches and `cls.default` is still
`None` (the code calls `cls.default(parsed)` unconditionally). -/
inductive FromUriResult where
  | ok : HandlerCls → ParsedURI → FromUriResult
  | raiseTypeError : FromUriResult
  deriving DecidableEq

/-- The default `URIHandler.is_supported`: scheme equality. -/
def is_supported (h : HandlerCls) (parsed : ParsedURI) : Bool :=
  h.scheme = parsed.scheme

/-- `URIHandler.from_uri`: scan the registered handlers in order and
instantiate the first whose scheme matches, else instantiate `cls.default` —
which raises a `TypeError` when no default handler was registered. -/
def from_uri (handlers : List HandlerCls) (defaultH : Option HandlerCls)
    (parsed : ParsedURI) : FromUriResult :=
  match handlers.find? (fun h => is_supported h parsed) with
  | some h => .ok h parsed
  | none =>
    match defaultH with
    | some d => .ok d parsed
    | none => .raiseTypeError

/-- The process-wide state the cleanup pass operates on: the tracked live
`ScanLocation` instances (the `KeepRefs` weak registry, modelled as an
explicit list) and the `CLEANUP_LOCATIONS` path set, next to the
filesystem. -/
structure CleanupState where
  instances : List ScanLocation
  cleanupSet : List Str
  fs : FS
  deriving DecidableEq

/-- The body of the first loop of `cleanup_locations`, for one tracked
instance: skip unless flagged, discharge the path from the explicit set, and
delete the path tree if it still exists. -/
def cleanupStep (st : List Str × FS) (obj : ScanLocation) : List Str × FS :=
  if obj.cleanup then
    ((if scontains st.1 obj.location then serase st.1 obj.location else st.1),
     (if FS.fexists st.2 obj.location then rmtree st.2 obj.location else st.2))
  else st

/-- The body of the second loop of `cleanup_locations`: delete any remaining
explicitly-flagged path that still exists. -/
def sweepStep (f : FS) (p : Str) : FS := if FS.fexists f p then rmtree f p else f

/-- `cleanup_locations` (the `atexit` hook): sweep the tracked instances,
then the leftover explicit set.  The second loop does not clear the set. -/
def cleanup_locations (st : CleanupState) : CleanupState :=
  let p1 := st.instances.foldl cleanupStep (st.cleanupSet, st.fs)
  { instances := st.instances, cleanupSet := p1.1, fs := p1.1.foldl sweepStep p1.2 }

/-- Trivial stand-ins for the external collaborators, used by the concrete
scenarios below. -/
def ext0 : Externals :=
  ⟨fun _ => chars "application/x-test", fun _ => none, fun _ _ => none⟩

/-- A `lookup_lines` stand-in for a file with no resolvable lines. -/
def fl0 : Nat → Option Str := fun _ => none

/-- A `get_severity` stand-in. -/
def sev0 : Detection → Int := fun _ => 0

/-- The process-wide temporary-file root used by the concrete scenarios. -/
def tmp0 : Str := chars "/tmp"

/-- An empty filesystem for scenarios that never touch a file. -/
def fs0 : FS := []

/-- A location configured with strip prefix `"a"` and no parent. -/
def locStripA : ScanLocation := ⟨chars "x", [], false, none, chars "a", none⟩

/-- A location whose metadata depth is 5. -/
def locDepth5 : ScanLocation :=
  ⟨chars "p5", [("depth", .vNat 5), ("tags", .vTags [])], false, none, [], none⟩

/-- A location whose metadata depth is 6. -/
def locDepth6 : ScanLocation :=
  ⟨chars "p6", [("depth", .vNat 6), ("tags", .vTags [])], false, none, [], none⟩

/-- A parent location at depth 0. -/
def locParent0 : ScanLocation :=
  ⟨chars "pkg", [("depth", .vNat 0), ("tags", .vTags [])], false, none, [], none⟩

/-- A depth-5 metadata mapping a caller might hand to `create_child`
explicitly. -/
def explicitMeta5 : Dict := [("depth", .vNat 5)]

/-- Scenario locations and filesystem for the cleanup pass: `locA4` is
flagged for cleanup and its path exists (with a file below it), `locB4` is
not flagged. -/
def locA4 : ScanLocation := ⟨chars "/t/a", [], true, none, [], none⟩

/-- The unflagged location of the cleanup scenario. -/
def locB4 : ScanLocation := ⟨chars "/t/b", [], false, none, [], none⟩

/-- The cleanup scenario's filesystem. -/
def fs4 : FS :=
  [(chars "/t/a", .dir), (chars "/t/a/f", .file [1]), (chars "/t/b", .file [2])]

/-- A filesystem with a small archive file and a directory. -/
def fs5 : FS := [(chars "f.zip", .file [10, 20, 30]), (chars "d", .dir)]

/-- A location constructed from the file `f.zip` (its digests are computed at
construction). -/
def locFile5 : ScanLocation :=
  mkScanLocation ext0 fs5 (chars "f.zip") [("depth", .vNat 0)] false none [] none

/-- The child of `locFile5` at the directory path `d`, with default
arguments. -/
def child5? : Option ScanLocation :=
  create_child ext0 fs5 tmp0 locFile5 (chars "d") none none none false

/-- A filesystem with a 100-byte file and a 10000-byte file. -/
def fs6 : FS :=
  [(chars "small.bin", .file (List.replicate 100 7)),
   (chars "big.bin", .file (List.replicate 10000 7))]

/-- A parent whose metadata carries `mime`, `interpreter_path`, a custom tag
set and a custom flag. -/
def locParent8 : ScanLocation :=
  ⟨chars "arch.zip",
   [("depth", .vNat 1), ("tags", .vTags [chars "custom-tag"]),
    ("mime", .vStr (chars "application/zip")), ("interpreter_path", .vOther 3),
    ("flag", .vOther 9)],
   false, none, [], none⟩

/-- The default-argument child of `locParent8`. -/
def child8? : Option ScanLocation :=
  create_child ext0 fs0 tmp0 locParent8 (chars "out") none none none false

/-- A location with strip prefix `"a"` used by the post-analysis scenario. -/
def loc9 : ScanLocation :=
  ⟨chars "x", [("tags", .vTags [])], false, none, chars "a", none⟩

/-- A detection whose `location` field is already set (to `"a/a/b"`). -/
def det9 : Detection :=
  ⟨[], [], some (chars "a/a/b"), none, some [], [], none, none, none, []⟩

/-- A registered handler for the `mirror` scheme. -/
def hMirror : HandlerCls := ⟨chars "mirror"⟩

/-- A registered handler for scheme `a`. -/
def hA : HandlerCls := ⟨chars "a"⟩

/-- A default handler. -/
def hDefault : HandlerCls := ⟨chars "default"⟩

/-- A parsed URI with scheme `pypi`. -/
def uriPypi : ParsedURI := ⟨chars "pypi"⟩

/-- A parsed URI with scheme `a`. -/
def uriA : ParsedURI := ⟨chars "a"⟩

/-- A post-analysis location with an empty strip prefix and a parent. -/
def loc9e : ScanLocation :=
  ⟨chars "y", [("tags", .vTags [chars "t0"])], false, some (chars "par"), [], none⟩

/-- A detection with every nullable field already set. -/
def det9full : Detection :=
  ⟨chars "msg", chars "sig", some (chars "par$y/z"), some 3, some (chars "line"),
   [chars "t1"], some loc9e, some [("k", .vNone)], some 7, []⟩


theorem dget?_dset_self (d : Dict) (k : String) (v : MetaVal) :
    dget? (dset d k v) k = some v := by
  induction d with
  | nil => simp [dset, dget?]
  | cons e rest ih =>
    by_cases h : e.1 = k
    · simp [dset, dget?, h]
    · simp [dset, dget?, h, ih]


theorem dkeys_nil : dkeys [] = [] := rfl

theorem dkeys_cons (e : String × MetaVal) (rest : Dict) :
    dkeys (e :: rest) = e.1 :: dkeys rest := rfl

theorem dget?_dset_ne (d : Dict) (k k' : String) (v : MetaVal) (h : k ≠ k') :
    dget? (dset d k v) k' = dget? d k' := by
  induction d with
  | nil => simp [dset, dget?, h]
  | cons e rest ih =>
    obtain ⟨ek, ev⟩ := e
    by_cases he : ek = k
    · rw [show dset ((ek, ev) :: rest) k v = (ek, v) :: rest from by simp [dset, he]]
      have h1 : ¬ ek = k' := by rw [he]; exact h
      simp [dget?, h1]
    · rw [show dset ((ek, ev) :: rest) k v = (ek, ev) :: dset rest k v from by
        simp [dset, he]]
      by_cases he' : ek = k'
      · simp [dget?, he']
      · simp [dget?, he', ih]

theorem dget?_dpop_ne (d : Dict) (k k' : String) (h : k ≠ k') :
    dget? (dpop d k) k' = dget? d k' := by
  induction d with
  | nil => simp [dpop]
  | cons e rest ih =>
    obtain ⟨ek, ev⟩ := e
    by_cases he : ek = k
    · rw [show dpop ((ek, ev) :: rest) k = rest from by simp [dpop, he]]
      have h1 : ¬ ek = k' := by rw [he]; exact h
      simp [dget?, h1]
    · rw [show dpop ((ek, ev) :: rest) k = (ek, ev) :: dpop rest k from by
        simp [dpop, he]]
      by_cases he' : ek = k'
      · simp [dget?, he']
      · simp [dget?, he', ih]

theorem dget?_eq_none_of_not_mem (d : Dict) (k : String) (h : k ∉ dkeys d) :
    dget? d k = none := by
  induction d with
  | nil => rfl
  | cons e rest ih =>
    rw [dkeys_cons] at h
    simp only [List.mem_cons, not_or] at h
    have h1 : ¬ e.1 = k := fun hh => h.1 hh.symm
    simp [dget?, h1, ih h.2]

theorem mem_dkeys_dset (d : Dict) (k k' : String) (v : MetaVal)
    (h : k' ∈ dkeys (dset d k v)) : k' ∈ dkeys d ∨ k' = k := by
  induction d with
  | nil =>
    simp [dset, dkeys] at h
    exact Or.inr h
  | cons e rest ih =>
    obtain ⟨ek, ev⟩ := e
    by_cases he : ek = k
    · rw [show dset ((ek, ev) :: rest) k v = (ek, v) :: rest from by simp [dset, he]] at h
      rw [dkeys_cons] at h
      rw [dkeys_cons]
      simp only [List.mem_cons] at h ⊢
      exact Or.inl h
    · rw [show dset ((ek, ev) :: rest) k v = (ek, ev) :: dset rest k v from by
        simp [dset, he]] at h
      rw [dkeys_cons] at h
      rw [dkeys_cons]
      simp only [List.mem_cons] at h ⊢
      rcases h with h | h
      · exact Or.inl (Or.inl h)
      · rcases ih h with h' | h'
        · exact Or.inl (Or.inr h')
        · exact Or.inr h'

theorem dkeys_dpop_subset (d : Dict) (k : String) : dkeys (dpop d k) ⊆ dkeys d := by
  induction d with
  | nil => simp [dpop]
  | cons e rest ih =>
    obtain ⟨ek, ev⟩ := e
    by_cases he : ek = k
    · rw [show dpop ((ek, ev) :: rest) k = rest from by simp [dpop, he]]
      rw [dkeys_cons]
      exact List.subset_cons_of_subset _ (List.Subset.refl _)
    · rw [show dpop ((ek, ev) :: rest) k = (ek, ev) :: dpop rest k from by
        simp [dpop, he]]
      rw [dkeys_cons, dkeys_cons]
      exact List.cons_subset_cons _ ih

theorem nodup_dkeys_dset (d : Dict) (k : String) (v : MetaVal)
    (h : (dkeys d).Nodup) : (dkeys (dset d k v)).Nodup := by
  induction d with
  | nil => simp [dset, dkeys]
  | cons e rest ih =>
    obtain ⟨ek, ev⟩ := e
    rw [dkeys_cons, List.nodup_cons] at h
    by_cases he : ek = k
    · rw [show dset ((ek, ev) :: rest) k v = (ek, v) :: rest from by simp [dset, he]]
      rw [dkeys_cons, List.nodup_cons]
      exact h
    · rw [show dset ((ek, ev) :: rest) k v = (ek, ev) :: dset rest k v from by
        simp [dset, he]]
      rw [dkeys_cons, List.nodup_cons]
      refine ⟨fun hm => ?_, ih h.2⟩
      rcases mem_dkeys_dset rest k ek v hm with h' | h'
      · exact h.1 h'
      · exact he h'

theorem nodup_dkeys_dpop (d : Dict) (k : String)
    (h : (dkeys d).Nodup) : (dkeys (dpop d k)).Nodup := by
  induction d with
  | nil => simpa [dpop] using h
  | cons e rest ih =>
    obtain ⟨ek, ev⟩ := e
    rw [dkeys_cons, List.nodup_cons] at h
    by_cases he : ek = k
    · rw [show dpop ((ek, ev) :: rest) k = rest from by simp [dpop, he]]
      exact h.2
    · rw [show dpop ((ek, ev) :: rest) k = (ek, ev) :: dpop rest k from by
        simp [dpop, he]]
      rw [dkeys_cons, List.nodup_cons]
      exact ⟨fun hm => h.1 (dkeys_dpop_subset rest k hm), ih h.2⟩

theorem dget?_dpop_self (d : Dict) (k : String) (h : (dkeys d).Nodup) :
    dget? (dpop d k) k = none := by
  induction d with
  | nil => simp [dpop, dget?]
  | cons e rest ih =>
    obtain ⟨ek, ev⟩ := e
    rw [dkeys_cons, List.nodup_cons] at h
    by_cases he : ek = k
    · rw [show dpop ((ek, ev) :: rest) k = rest from by simp [dpop, he]]
      subst he
      exact dget?_eq_none_of_not_mem rest ek h.1
    · rw [show dpop ((ek, ev) :: rest) k = (ek, ev) :: dpop rest k from by
        simp [dpop, he]]
      simp [dget?, he]
      exact ih h.2

theorem prefixOf_append_self (p t : Str) : p.isPrefixOf (p ++ t) = true := by
  induction p with
  | nil => simp [List.isPrefixOf]
  | cons c cs ih => simp [List.isPrefixOf, ih]

theorem stripCore_eq_of_not (sp : Str) (t : Str)
    (h : sp = [] ∨ sp.isPrefixOf t = false) : stripCore sp t = t := by
  unfold stripCore
  rcases h with h | h
  · rw [if_neg]
    rintro ⟨h1, _⟩
    exact h1 h
  · rw [if_neg]
    rintro ⟨_, h2⟩
    rw [h] at h2
    cases h2

theorem stripFn_none_eq (sp x : Str) : stripFn sp none x = stripCore sp x := rfl

theorem stripFn_some_eq (sp p x : Str) :
    stripFn sp (some p) x =
      if p ≠ [] then
        (if p.isPrefixOf (stripCore sp x) then stripCore sp x
         else p ++ '$' :: stripCore sp x)
      else stripCore sp x := rfl

theorem stripFn_parent_isPrefix (sp : Str) (p : Str) (x : Str) (hp : p ≠ []) :
    p.isPrefixOf (stripFn sp (some p) x) = true := by
  rw [stripFn_some_eq, if_pos hp]
  by_cases h : p.isPrefixOf (stripCore sp x) = true
  · rw [if_pos h]
    exact h
  · rw [if_neg h]
    exact prefixOf_append_self p ('$' :: stripCore sp x)

theorem stripFn_idem_of (sp : Str) (parent : Option Str) (x : Str)
    (h : sp = [] ∨ sp.isPrefixOf (stripFn sp parent x) = false) :
    stripFn sp parent (stripFn sp parent x) = stripFn sp parent x := by
  have hcore : stripCore sp (stripFn sp parent x) = stripFn sp parent x :=
    stripCore_eq_of_not sp _ h
  match parent with
  | none =>
    rw [stripFn_none_eq]
    exact hcore
  | some p =>
    by_cases hp : p = []
    · rw [stripFn_some_eq sp p (stripFn sp (some p) x), if_neg (by simp [hp])]
      exact hcore
    · rw [stripFn_some_eq sp p (stripFn sp (some p) x), if_pos hp, hcore,
        if_pos (stripFn_parent_isPrefix sp p x hp)]

theorem smem_true_of_mem (a : List Str) (x : Str) (h : x ∈ a) : smem a x = true := by
  induction a with
  | nil => cases h
  | cons b r ih =>
    rcases List.mem_cons.mp h with h | h
    · simp [smem, h.symm]
    · by_cases hb : b = x
      · simp [smem, hb]
      · simp [smem, hb, ih h]

theorem mem_sunion_left (a b : List Str) (x : Str) (h : x ∈ b) : x ∈ sunion a b := by
  unfold sunion
  by_cases ha : x ∈ a
  · exact List.mem_append_left _ ha
  · refine List.mem_append_right _ ?_
    refine List.mem_filter.mpr ⟨h, ?_⟩
    simp only [Bool.not_eq_true']
    cases hs : smem a x
    · rfl
    · exfalso
      induction a with
      | nil => cases hs
      | cons c r ih =>
        by_cases hc : c = x
        · exact ha (by simp [hc])
        · simp [smem, hc] at hs
          exact ih (fun hm => ha (List.mem_cons_of_mem _ hm)) hs

theorem sunion_absorb (t g : List Str) : sunion (sunion t g) g = sunion t g := by
  have hnil : (g.filter (fun x => !(smem (sunion t g) x))) = [] := by
    rw [List.filter_eq_nil_iff]
    intro x hx
    simp [smem_true_of_mem _ _ (mem_sunion_left t g x hx)]
  show sunion t g ++ g.filter (fun x => !(smem (sunion t g) x)) = sunion t g
  rw [hnil, List.append_nil]

theorem updAll_nil (s : HashState) : updAll s [] = s := by
  simp [updAll]

theorem updAll_append (s : HashState) (l₁ l₂ : List Nat) :
    updAll s (l₁ ++ l₂) = updAll (updAll s l₁) l₂ := by
  simp [updAll, List.foldl_append, Nat.add_assoc]

theorem chunksGo_foldl (fuel : Nat) : ∀ (l : List Nat) (s : HashState),
    l.length ≤ fuel → (chunksGo fuel l).foldl updAll s = updAll s l := by
  induction fuel with
  | zero =>
    intro l s h
    have hl : l = [] := List.eq_nil_of_length_eq_zero (Nat.le_zero.mp h)
    subst hl
    simp [chunksGo, updAll_nil]
  | succ n ih =>
    intro l s h
    match l with
    | [] => simp [chunksGo, updAll_nil]
    | a :: as =>
      simp only [chunksGo, List.foldl_cons]
      rw [ih _ _ (by simp [List.length_drop] at h ⊢; omega)]
      rw [← updAll_append, List.take_append_drop]

theorem chunks_foldl (l : List Nat) :
    (chunks l).foldl updAll initHash = updAll initHash l :=
  chunksGo_foldl l.length l initHash (le_refl _)

theorem tlen_updAll (l : List Nat) : (updAll initHash l).tlen = l.length := by
  simp [updAll, initHash]

theorem natToHex_length (w v : Nat) : (natToHex w v).length = w := by
  induction w generalizing v with
  | zero => rfl
  | succ n ih => simp [natToHex, ih]

theorem toHexDigit_mem (n : Nat) : toHexDigit n ∈ hexChars := by
  unfold toHexDigit
  have h : n % 16 < hexChars.length := by
    have h16 : n % 16 < 16 := Nat.mod_lt _ (by omega)
    simpa [hexChars] using h16
  rw [List.getD_eq_getElem _ _ h]
  exact List.getElem_mem h

theorem natToHex_mem (w v : Nat) : ∀ c ∈ natToHex w v, c ∈ hexChars := by
  induction w generalizing v with
  | zero => intro c hc; cases hc
  | succ n ih =>
    intro c hc
    simp only [natToHex] at hc
    rcases List.mem_cons.mp hc with h | h
    · rw [h]; exact toHexDigit_mem _
    · exact ih _ c h

theorem dget?_computeHashesMeta_ne (content : List Nat) (md : Dict) (k : String)
    (h : k ≠ "tlsh" ∧ k ≠ "md5" ∧ k ≠ "sha1" ∧ k ≠ "sha256" ∧ k ≠ "sha512") :
    dget? (computeHashesMeta content md) k = dget? md k := by
  simp only [computeHashesMeta]
  rw [dget?_dset_ne _ _ _ _ (Ne.symm h.2.2.2.2), dget?_dset_ne _ _ _ _ (Ne.symm h.2.2.2.1),
      dget?_dset_ne _ _ _ _ (Ne.symm h.2.2.1), dget?_dset_ne _ _ _ _ (Ne.symm h.2.1)]
  split
  · rfl
  · rw [dget?_dset_ne _ _ _ _ (Ne.symm h.1)]

theorem dget?_computeHashesMeta_md5 (content : List Nat) (md : Dict) :
    dget? (computeHashesMeta content md) "md5" = some (.vStr (md5Hex content)) := by
  simp only [computeHashesMeta]
  rw [dget?_dset_ne _ _ _ _ (by decide), dget?_dset_ne _ _ _ _ (by decide),
      dget?_dset_ne _ _ _ _ (by decide), dget?_dset_self, chunks_foldl]
  rfl

theorem dget?_computeHashesMeta_sha1 (content : List Nat) (md : Dict) :
    dget? (computeHashesMeta content md) "sha1" = some (.vStr (sha1Hex content)) := by
  simp only [computeHashesMeta]
  rw [dget?_dset_ne _ _ _ _ (by decide), dget?_dset_ne _ _ _ _ (by decide),
      dget?_dset_self, chunks_foldl]
  rfl

theorem dget?_computeHashesMeta_sha256 (content : List Nat) (md : Dict) :
    dget? (computeHashesMeta content md) "sha256" = some (.vStr (sha256Hex content)) := by
  simp only [computeHashesMeta]
  rw [dget?_dset_ne _ _ _ _ (by decide), dget?_dset_self, chunks_foldl]
  rfl

theorem dget?_computeHashesMeta_sha512 (content : List Nat) (md : Dict) :
    dget? (computeHashesMeta content md) "sha512" = some (.vStr (sha512Hex content)) := by
  simp only [computeHashesMeta]
  rw [dget?_dset_self, chunks_foldl]
  rfl

theorem dget?_computeHashesMeta_tlsh (content : List Nat) (md : Dict) :
    dget? (computeHashesMeta content md) "tlsh" =
      if content.length < 256 then dget? md "tlsh"
      else some (.vStr (tlshHex content)) := by
  simp only [computeHashesMeta]
  rw [dget?_dset_ne _ _ _ _ (by decide), dget?_dset_ne _ _ _ _ (by decide),
      dget?_dset_ne _ _ _ _ (by decide), dget?_dset_ne _ _ _ _ (by decide)]
  rw [chunks_foldl, tlen_updAll]
  by_cases hlen : content.length < 256
  · rw [if_pos hlen, if_pos hlen]
  · rw [if_neg hlen, if_neg hlen, dget?_dset_self]
    rfl

theorem dget?_mimeStep_ne (ext : Externals) (l : Str) (md : Dict) (k : String)
    (h : k ≠ "mime") : dget? (mimeStep ext l md) k = dget? md k := by
  simp only [mimeStep]
  split
  · split
    · simp only [dget?_dset_ne _ _ _ _ (Ne.symm h)]
    · simp only [dget?_dset_ne _ _ _ _ (Ne.symm h)]
  · simp only [dget?_dset_ne _ _ _ _ (Ne.symm h)]

theorem dget?_importsStep_ne (ext : Externals) (l : Str) (md : Dict) (k : String)
    (h : k ≠ "py_imports") : dget? (importsStep ext l md) k = dget? md k := by
  simp only [importsStep]
  split
  · split
    · split
      · exact dget?_dset_ne _ _ _ _ (Ne.symm h)
      · rfl
    · rfl
  · rfl

theorem depthIsNone_of_vNat (md : Dict) (n : Nat)
    (h : dget? md "depth" = some (.vNat n)) : depthIsNone md = false := by
  simp [depthIsNone, h]

theorem dget?_postInitCore_ne (l sp : Str) (p : Option Str) (md : Dict) (k : String)
    (h : k ≠ "path" ∧ k ≠ "normalized_path" ∧ k ≠ "tags" ∧ k ≠ "depth") :
    dget? (postInitCore l sp p md) k = dget? md k := by
  simp only [postInitCore]
  split <;>
    simp only [dget?_dset_ne _ _ _ _ (Ne.symm h.1), dget?_dset_ne _ _ _ _ (Ne.symm h.2.1),
      dget?_dset_ne _ _ _ _ (Ne.symm h.2.2.1), dget?_dset_ne _ _ _ _ (Ne.symm h.2.2.2)]

theorem dget?_postInitCore_path (l sp : Str) (p : Option Str) (md : Dict) :
    dget? (postInitCore l sp p md) "path" = some (.vStr l) := by
  simp only [postInitCore]
  split <;>
    simp only [dget?_dset_ne _ _ _ _ (show ("depth" : String) ≠ "path" by decide),
      dget?_dset_ne _ _ _ _ (show ("tags" : String) ≠ "path" by decide),
      dget?_dset_ne _ _ _ _ (show ("normalized_path" : String) ≠ "path" by decide),
      dget?_dset_self]

theorem dget?_postInitCore_norm (l sp : Str) (p : Option Str) (md : Dict) :
    dget? (postInitCore l sp p md) "normalized_path" =
      some (.vStr (stripFn sp p l)) := by
  simp only [postInitCore]
  split <;>
    simp only [dget?_dset_ne _ _ _ _ (show ("depth" : String) ≠ "normalized_path" by decide),
      dget?_dset_ne _ _ _ _ (show ("tags" : String) ≠ "normalized_path" by decide),
      dget?_dset_self]

theorem dget?_postInitCore_tags (l sp : Str) (p : Option Str) (md : Dict) :
    dget? (postInitCore l sp p md) "tags" = some (.vTags []) := by
  simp only [postInitCore]
  split <;>
    simp only [dget?_dset_ne _ _ _ _ (show ("depth" : String) ≠ "tags" by decide),
      dget?_dset_self]

theorem dget?_postInitCore_depth (l sp : Str) (p : Option Str) (md : Dict) (n : Nat)
    (h : dget? md "depth" = some (.vNat n)) :
    dget? (postInitCore l sp p md) "depth" = some (.vNat n) := by
  have h3 : dget? (dset (dset (dset md "path" (.vStr l)) "normalized_path"
      (.vStr (stripFn sp p l))) "tags" (.vTags [])) "depth" = some (.vNat n) := by
    rw [dget?_dset_ne _ _ _ _ (by decide), dget?_dset_ne _ _ _ _ (by decide),
        dget?_dset_ne _ _ _ _ (by decide)]
    exact h
  simp only [postInitCore]
  rw [if_neg (by rw [depthIsNone_of_vNat _ _ h3]; exact Bool.false_ne_true)]
  exact h3

theorem mkScanLocation_file (ext : Externals) (fs : FS) (l : Str) (md : Dict)
    (c : Bool) (p : Option Str) (sp : Str) (sz : Option Nat) (content : List Nat)
    (hf : FS.lookup fs l = some (.file content)) :
    mkScanLocation ext fs l md c p sp sz =
      { location := l
        metadata := importsStep ext l (mimeStep ext l
          (computeHashesMeta content (postInitCore l sp p md)))
        cleanup := c, parent := p, strip_path := sp
        size := some content.length } := by
  simp only [mkScanLocation, hf]

theorem mkScanLocation_nonfile (ext : Externals) (fs : FS) (l : Str) (md : Dict)
    (c : Bool) (p : Option Str) (sp : Str) (sz : Option Nat)
    (hf : FS.isFile fs l = false) :
    mkScanLocation ext fs l md c p sp sz =
      { location := l, metadata := postInitCore l sp p md
        cleanup := c, parent := p, strip_path := sp, size := sz } := by
  simp only [mkScanLocation]
  cases hl : FS.lookup fs l with
  | none => simp [hl]
  | some node =>
    cases node with
    | file content =>
      exfalso
      rw [FS.isFile, hl] at hf
      cases hf
    | dir => simp [hl]

theorem dget?_mk_file_core_ne (ext : Externals) (fs : FS) (l : Str) (md : Dict)
    (c : Bool) (p : Option Str) (sp : Str) (sz : Option Nat) (content : List Nat)
    (k : String) (hf : FS.lookup fs l = some (.file content))
    (h : k ≠ "py_imports" ∧ k ≠ "mime" ∧ k ≠ "tlsh" ∧ k ≠ "md5" ∧ k ≠ "sha1" ∧
      k ≠ "sha256" ∧ k ≠ "sha512") :
    dget? (mkScanLocation ext fs l md c p sp sz).metadata k =
      dget? (postInitCore l sp p md) k := by
  rw [mkScanLocation_file ext fs l md c p sp sz content hf]
  show dget? (importsStep ext l (mimeStep ext l
    (computeHashesMeta content (postInitCore l sp p md)))) k = _
  rw [dget?_importsStep_ne _ _ _ _ h.1, dget?_mimeStep_ne _ _ _ _ h.2.1,
      dget?_computeHashesMeta_ne _ _ _ ⟨h.2.2.1, h.2.2.2.1, h.2.2.2.2.1,
        h.2.2.2.2.2.1, h.2.2.2.2.2.2⟩]

theorem dget?_mk_core (ext : Externals) (fs : FS) (l : Str) (md : Dict) (c : Bool)
    (p : Option Str) (sp : Str) (sz : Option Nat) (k : String)
    (h : k ≠ "py_imports" ∧ k ≠ "mime" ∧ k ≠ "tlsh" ∧ k ≠ "md5" ∧ k ≠ "sha1" ∧
      k ≠ "sha256" ∧ k ≠ "sha512") :
    dget? (mkScanLocation ext fs l md c p sp sz).metadata k =
      dget? (postInitCore l sp p md) k := by
  cases hl : FS.lookup fs l with
  | none => rw [mkScanLocation_nonfile ext fs l md c p sp sz (by simp [FS.isFile, hl])]
  | some node =>
    cases node with
    | file content => exact dget?_mk_file_core_ne ext fs l md c p sp sz content k hl h
    | dir => rw [mkScanLocation_nonfile ext fs l md c p sp sz (by simp [FS.isFile, hl])]

theorem dget?_mk_path (ext : Externals) (fs : FS) (l : Str) (md : Dict) (c : Bool)
    (p : Option Str) (sp : Str) (sz : Option Nat) :
    dget? (mkScanLocation ext fs l md c p sp sz).metadata "path" = some (.vStr l) :=
  (dget?_mk_core ext fs l md c p sp sz "path" (by decide)).trans
    (dget?_postInitCore_path l sp p md)

theorem dget?_mk_norm (ext : Externals) (fs : FS) (l : Str) (md : Dict) (c : Bool)
    (p : Option Str) (sp : Str) (sz : Option Nat) :
    dget? (mkScanLocation ext fs l md c p sp sz).metadata "normalized_path" =
      some (.vStr (stripFn sp p l)) :=
  (dget?_mk_core ext fs l md c p sp sz "normalized_path" (by decide)).trans
    (dget?_postInitCore_norm l sp p md)

theorem dget?_mk_tags (ext : Externals) (fs : FS) (l : Str) (md : Dict) (c : Bool)
    (p : Option Str) (sp : Str) (sz : Option Nat) :
    dget? (mkScanLocation ext fs l md c p sp sz).metadata "tags" = some (.vTags []) :=
  (dget?_mk_core ext fs l md c p sp sz "tags" (by decide)).trans
    (dget?_postInitCore_tags l sp p md)

theorem dget?_mk_depth (ext : Externals) (fs : FS) (l : Str) (md : Dict) (c : Bool)
    (p : Option Str) (sp : Str) (sz : Option Nat) (n : Nat)
    (h : dget? md "depth" = some (.vNat n)) :
    dget? (mkScanLocation ext fs l md c p sp sz).metadata "depth" = some (.vNat n) :=
  (dget?_mk_core ext fs l md c p sp sz "depth" (by decide)).trans
    (dget?_postInitCore_depth l sp p md n h)

/-- C1 counterexample: on the location configured with strip prefix `"a"` and
no parent, the path `"a/a/b"` normalizes to `"a/b"`, which normalizes again
to `"b"`: `strip` is not idempotent for every path. -/
theorem strip_not_idempotent :
    locStripA.strip (chars "a/a/b") = chars "a/b" ∧
    locStripA.strip (locStripA.strip (chars "a/a/b")) = chars "b" ∧
    locStripA.strip (locStripA.strip (chars "a/a/b")) ≠ locStripA.strip (chars "a/a/b") := by
  decide

/-- C1 (amended): `strip` is idempotent on every path whose once-normalized
form does not itself begin with the configured strip prefix — in particular
on every path when the strip prefix is empty.  (The original claim, for every
path, fails: see the counterexample.) -/
theorem strip_idempotent_amended (loc : ScanLocation) (x : Str)
    (h : loc.strip_path = [] ∨ loc.strip_path.isPrefixOf (loc.strip x) = false) :
    loc.strip (loc.strip x) = loc.strip x :=
  stripFn_idem_of loc.strip_path loc.parent x h

/-- C1 witness: the amended idempotence at a concrete location and path. -/
theorem strip_idempotent_amended_witness :
    locStripA.strip (locStripA.strip (chars "q")) = locStripA.strip (chars "q") :=
  strip_idempotent_amended locStripA (chars "q") (Or.inr (by decide))

/-- C7: handler resolution returns the first registered handler whose scheme
matches, else the default handler; but when no handler matches and no default
is registered, `from_uri` evaluates `cls.default(parsed)` with `default =
None` and raises a `TypeError` instead of returning the `None` its
`Optional[URIHandler]` annotation (and its caller's `is None` check in
`scan_uri`) promise. -/
theorem from_uri_behavior :
    from_uri [hMirror, hA] (some hDefault) uriA = .ok hA uriA ∧
    from_uri [hMirror, hA] (some hDefault) uriPypi = .ok hDefault uriPypi ∧
    from_uri [hMirror] none uriPypi = .raiseTypeError := by
  decide

/-- C10: every construction of a `ScanLocation` rewrites the caller-supplied
metadata so that `"path"` holds the canonical path, `"normalized_path"` the
normalized display string, and `"tags"` a fresh empty set — unconditionally,
so any previous `tags` value in the mapping is discarded. -/
theorem post_init_overwrites_metadata (ext : Externals) (fs : FS) (l : Str)
    (md : Dict) (c : Bool) (p : Option Str) (sp : Str) (sz : Option Nat) :
    dget? (mkScanLocation ext fs l md c p sp sz).metadata "path" = some (.vStr l) ∧
    dget? (mkScanLocation ext fs l md c p sp sz).metadata "normalized_path" =
      some (.vStr (stripFn sp p l)) ∧
    dget? (mkScanLocation ext fs l md c p sp sz).metadata "tags" = some (.vTags []) :=
  ⟨dget?_mk_path ext fs l md c p sp sz, dget?_mk_norm ext fs l md c p sp sz,
    dget?_mk_tags ext fs l md c p sp sz⟩

theorem create_child_default_depth (ext : Externals) (fs : FS) (tmp : Str)
    (loc : ScanLocation) (nl : Str) (pKw : Option (Option Str)) (sKw : Option Str)
    (ck : Bool) (n : Nat) (h : dget? loc.metadata "depth" = some (.vNat n)) :
    (create_child ext fs tmp loc nl none pKw sKw ck).bind
      (fun c => dget? c.metadata "depth") = some (.vNat (n + 1)) := by
  simp only [create_child, h, Option.bind]
  apply dget?_mk_depth
  rw [dget?_dset_ne _ _ _ _ (by decide), dget?_dpop_ne _ _ _ (by decide),
      dget?_dpop_ne _ _ _ (by decide), dget?_dpop_ne _ _ _ (by decide), dget?_dset_self]

theorem childChain_depth (ext : Externals) (fs : FS) (tmp : Str) :
    ∀ (paths : List Str) (loc : ScanLocation) (n : Nat),
    dget? loc.metadata "depth" = some (.vNat n) →
    (childChain ext fs tmp loc paths).bind (fun c => dget? c.metadata "depth") =
      some (.vNat (n + paths.length)) := by
  intro paths
  induction paths with
  | nil =>
    intro loc n h
    simpa [childChain, Option.bind] using h
  | cons p ps ih =>
    intro loc n h
    have h1 := create_child_default_depth ext fs tmp loc p none none false n h
    cases hc : create_child ext fs tmp loc p none none none false with
    | none => rw [hc] at h1; cases h1
    | some c =>
      rw [hc] at h1
      simp only [Option.bind] at h1
      have h2 := ih c (n + 1) h1
      simp only [childChain, hc]
      rw [h2]
      have harith : n + 1 + ps.length = n + (p :: ps).length := by
        simp [List.length_cons]
        omega
      rw [harith]

/-- C3 counterexample: a `create_child` call that supplies an explicit
metadata mapping keeps that mapping's depth: a parent at depth 0 yields a
child at depth 5, not 1. -/
theorem create_child_depth_counterexample :
    dget? locParent0.metadata "depth" = some (.vNat 0) ∧
    (create_child ext0 fs0 tmp0 locParent0 (chars "m") (some explicitMeta5) none none
        false).bind (fun c => dget? c.metadata "depth") = some (.vNat 5) := by
  decide

/-- C3 (amended): for every `create_child` call that leaves the `metadata`
parameter at its default (`None`), the child's metadata depth is the parent's
plus 1, and along any chain of such default-metadata derivations a descendant
k levels down sits at depth n + k.  (The original claim, over every call,
fails when the caller passes an explicit metadata mapping: see the
counterexample.) -/
theorem create_child_depth (ext : Externals) (fs : FS) (tmp : Str)
    (loc : ScanLocation) (nl : Str) (pKw : Option (Option Str)) (sKw : Option Str)
    (ck : Bool) (paths : List Str) (n : Nat)
    (h : dget? loc.metadata "depth" = some (.vNat n)) :
    (create_child ext fs tmp loc nl none pKw sKw ck).bind
      (fun c => dget? c.metadata "depth") = some (.vNat (n + 1)) ∧
    (childChain ext fs tmp loc paths).bind (fun c => dget? c.metadata "depth") =
      some (.vNat (n + paths.length)) :=
  ⟨create_child_default_depth ext fs tmp loc nl pKw sKw ck n h,
   childChain_depth ext fs tmp paths loc n h⟩

/-- C3 witness: the amended depth law at a depth-0 parent, for one step and
for a three-step chain. -/
theorem create_child_depth_witness :
    (create_child ext0 fs0 tmp0 locParent0 (chars "m") none none none false).bind
      (fun c => dget? c.metadata "depth") = some (.vNat (0 + 1)) ∧
    (childChain ext0 fs0 tmp0 locParent0 [chars "a", chars "b", chars "c"]).bind
      (fun c => dget? c.metadata "depth") =
      some (.vNat (0 + [chars "a", chars "b", chars "c"].length)) :=
  create_child_depth ext0 fs0 tmp0 locParent0 (chars "m") none none false
    [chars "a", chars "b", chars "c"] 0 (by decide)

/-- C8 counterexample: `create_child` on a parent carrying `mime`,
`interpreter_path`, a custom `tags` value and a custom flag removes the two
path-specific keys and carries the flag over, but the inherited custom
`tags` value `{"custom-tag"}` is NOT preserved: the child's construction
resets `tags` to a fresh empty set. -/
theorem create_child_tags_counterexample :
    dget? locParent8.metadata "tags" = some (.vTags [chars "custom-tag"]) ∧
    child8?.map (fun c => dget? c.metadata "tags") = some (some (.vTags [])) ∧
    child8?.map (fun c => dget? c.metadata "mime") = some none ∧
    child8?.map (fun c => dget? c.metadata "interpreter_path") = some none ∧
    child8?.map (fun c => dget? c.metadata "flag") = some (some (.vOther 9)) := by
  decide

/-- C8 (amended): a default-metadata `create_child` to a non-file path
removes the `mime` and `interpreter_path` keys from the inherited (deep
copied) metadata and carries every other inherited key (custom flags,
analyzer selection handled separately) over unchanged; the inherited `tags`
value, however, is not preserved: the child's own construction resets `tags`
to an empty set.  (The original claim's "tags preserved unchanged" fails:
see the counterexample.) -/
theorem create_child_metadata_frame (ext : Externals) (fs : FS) (tmp : Str)
    (loc : ScanLocation) (nl : Str) (pKw : Option (Option Str)) (sKw : Option Str)
    (ck : Bool) (n : Nat) (k : String)
    (hnd : (dkeys loc.metadata).Nodup)
    (hdepth : dget? loc.metadata "depth" = some (.vNat n))
    (hfile : FS.isFile fs nl = false)
    (hk : k ≠ "mime" ∧ k ≠ "interpreter_path" ∧ k ≠ "interpreter_name" ∧
      k ≠ "analyzers" ∧ k ≠ "depth" ∧ k ≠ "path" ∧ k ≠ "normalized_path" ∧ k ≠ "tags") :
    (create_child ext fs tmp loc nl none pKw sKw ck).map
        (fun c => dget? c.metadata "mime") = some none ∧
    (create_child ext fs tmp loc nl none pKw sKw ck).map
        (fun c => dget? c.metadata "interpreter_path") = some none ∧
    (create_child ext fs tmp loc nl none pKw sKw ck).map
        (fun c => dget? c.metadata "tags") = some (some (.vTags [])) ∧
    (create_child ext fs tmp loc nl none pKw sKw ck).map
        (fun c => dget? c.metadata k) = some (dget? loc.metadata k) := by
  have hnd0 : (dkeys (dset loc.metadata "depth" (.vNat (n + 1)))).Nodup :=
    nodup_dkeys_dset _ _ _ hnd
  have hnd1 : (dkeys (dpop (dset loc.metadata "depth" (.vNat (n + 1))) "mime")).Nodup :=
    nodup_dkeys_dpop _ _ hnd0
  simp only [create_child, hdepth, Option.map]
  refine ⟨?_, ?_, ?_, ?_⟩
  · rw [mkScanLocation_nonfile ext fs nl _ ck _ _ none hfile]
    refine congrArg some ?_
    show dget? (postInitCore nl _ _ _) "mime" = none
    rw [dget?_postInitCore_ne _ _ _ _ _ (by decide),
        dget?_dset_ne _ _ _ _ (by decide), dget?_dpop_ne _ _ _ (by decide),
        dget?_dpop_ne _ _ _ (by decide)]
    rw [dget?_dpop_self _ _ hnd0]
  · rw [mkScanLocation_nonfile ext fs nl _ ck _ _ none hfile]
    refine congrArg some ?_
    show dget? (postInitCore nl _ _ _) "interpreter_path" = none
    rw [dget?_postInitCore_ne _ _ _ _ _ (by decide),
        dget?_dset_ne _ _ _ _ (by decide), dget?_dpop_ne _ _ _ (by decide)]
    rw [dget?_dpop_self _ _ hnd1]
  · rw [mkScanLocation_nonfile ext fs nl _ ck _ _ none hfile]
    refine congrArg some ?_
    show dget? (postInitCore nl _ _ _) "tags" = some (.vTags [])
    rw [dget?_postInitCore_tags]
  · rw [mkScanLocation_nonfile ext fs nl _ ck _ _ none hfile]
    refine congrArg some ?_
    show dget? (postInitCore nl _ _ _) k = dget? loc.metadata k
    rw [dget?_postInitCore_ne _ _ _ _ _ ⟨hk.2.2.2.2.2.1, hk.2.2.2.2.2.2.1,
        hk.2.2.2.2.2.2.2, hk.2.2.2.2.1⟩]
    rw [dget?_dset_ne _ _ _ _ (Ne.symm hk.2.2.2.1), dget?_dpop_ne _ _ _ (Ne.symm hk.2.2.1),
        dget?_dpop_ne _ _ _ (Ne.symm hk.2.1), dget?_dpop_ne _ _ _ (Ne.symm hk.1),
        dget?_dset_ne _ _ _ _ (Ne.symm hk.2.2.2.2.1)]

/-- C8 witness: the amended frame law at the concrete parent `locParent8`
with custom key `flag`. -/
theorem create_child_metadata_frame_witness :
    (create_child ext0 fs0 tmp0 locParent8 (chars "out") none none none false).map
        (fun c => dget? c.metadata "mime") = some none ∧
    (create_child ext0 fs0 tmp0 locParent8 (chars "out") none none none false).map
        (fun c => dget? c.metadata "interpreter_path") = some none ∧
    (create_child ext0 fs0 tmp0 locParent8 (chars "out") none none none false).map
        (fun c => dget? c.metadata "tags") = some (some (.vTags [])) ∧
    (create_child ext0 fs0 tmp0 locParent8 (chars "out") none none none false).map
        (fun c => dget? c.metadata "flag") = some (dget? locParent8.metadata "flag") :=
  create_child_metadata_frame ext0 fs0 tmp0 locParent8 (chars "out") none none false 1
    "flag" (by decide) (by decide) (by decide) (by decide)

theorem postOne_signature (loc : ScanLocation) (fl : Nat → Option Str)
    (sev : Detection → Int) (d : Detection) :
    (postOne loc fl sev d).signature = d.signature := by
  simp only [postOne]
  split <;> rfl

/-- C2: with the maximum depth configured to 5, `should_continue` on a
location of metadata depth 5 returns `True`; at depth 6 it returns — instead
of `True` — the synthesized max-depth `DataProcessing` detection routed
through the location's own `post_analysis` step, and that detection's
deterministic signature `data_processing#max_depth#<normalized path>`
contains (has as suffix) the location's normalized display path. -/
theorem should_continue_depth_limit (fl : Nat → Option Str) (sev : Detection → Int)
    (loc5 loc6 : ScanLocation)
    (h5 : dget? loc5.metadata "depth" = some (.vNat 5))
    (h6 : dget? loc6.metadata "depth" = some (.vNat 6)) :
    should_continue fl sev 5 loc5 = .cont ∧
    should_continue fl sev 5 loc6 =
      .halt ((post_analysis loc6 fl sev [maxDepthDetection loc6]).headD
        (maxDepthDetection loc6)) ∧
    ((post_analysis loc6 fl sev [maxDepthDetection loc6]).headD
        (maxDepthDetection loc6)).signature =
      chars "data_processing#max_depth#" ++ strOf loc6 ∧
    strOf loc6 <:+ ((post_analysis loc6 fl sev [maxDepthDetection loc6]).headD
        (maxDepthDetection loc6)).signature := by
  refine ⟨?_, ?_, ?_, ?_⟩
  · simp only [should_continue, h5]
    rw [if_neg (by omega)]
  · simp only [should_continue, h6]
    rw [if_pos (by omega)]
  · show (postOne loc6 fl sev (maxDepthDetection loc6)).signature = _
    rw [postOne_signature]
    rfl
  · show strOf loc6 <:+ (postOne loc6 fl sev (maxDepthDetection loc6)).signature
    rw [postOne_signature]
    exact ⟨chars "data_processing#max_depth#", rfl⟩

/-- C2 witness: the depth-limit law at the concrete locations of depth 5 and
depth 6. -/
theorem should_continue_depth_limit_witness :
    should_continue fl0 sev0 5 locDepth5 = .cont ∧
    should_continue fl0 sev0 5 locDepth6 =
      .halt ((post_analysis locDepth6 fl0 sev0 [maxDepthDetection locDepth6]).headD
        (maxDepthDetection locDepth6)) ∧
    ((post_analysis locDepth6 fl0 sev0 [maxDepthDetection locDepth6]).headD
        (maxDepthDetection locDepth6)).signature =
      chars "data_processing#max_depth#" ++ strOf locDepth6 ∧
    strOf locDepth6 <:+ ((post_analysis locDepth6 fl0 sev0 [maxDepthDetection locDepth6]).headD
        (maxDepthDetection locDepth6)).signature :=
  should_continue_depth_limit fl0 sev0 locDepth5 locDepth6 (by decide) (by decide)

theorem isHexStr_natToHex (w v : Nat) : isHexStr (natToHex w v) = true := by
  induction w generalizing v with
  | zero => rfl
  | succ n ih =>
    simp only [natToHex, isHexStr]
    rw [if_pos (toHexDigit_mem _)]
    exact ih _

theorem dget?_mk_file_md5 (ext : Externals) (fs : FS) (l : Str) (md : Dict) (c : Bool)
    (p : Option Str) (sp : Str) (sz : Option Nat) (content : List Nat)
    (hf : FS.lookup fs l = some (.file content)) :
    dget? (mkScanLocation ext fs l md c p sp sz).metadata "md5" =
      some (.vStr (md5Hex content)) := by
  rw [mkScanLocation_file ext fs l md c p sp sz content hf]
  show dget? (importsStep ext l (mimeStep ext l
    (computeHashesMeta content (postInitCore l sp p md)))) "md5" = _
  rw [dget?_importsStep_ne _ _ _ _ (by decide), dget?_mimeStep_ne _ _ _ _ (by decide),
      dget?_computeHashesMeta_md5]

theorem dget?_mk_file_sha1 (ext : Externals) (fs : FS) (l : Str) (md : Dict) (c : Bool)
    (p : Option Str) (sp : Str) (sz : Option Nat) (content : List Nat)
    (hf : FS.lookup fs l = some (.file content)) :
    dget? (mkScanLocation ext fs l md c p sp sz).metadata "sha1" =
      some (.vStr (sha1Hex content)) := by
  rw [mkScanLocation_file ext fs l md c p sp sz content hf]
  show dget? (importsStep ext l (mimeStep ext l
    (computeHashesMeta content (postInitCore l sp p md)))) "sha1" = _
  rw [dget?_importsStep_ne _ _ _ _ (by decide), dget?_mimeStep_ne _ _ _ _ (by decide),
      dget?_computeHashesMeta_sha1]

theorem dget?_mk_file_sha256 (ext : Externals) (fs : FS) (l : Str) (md : Dict) (c : Bool)
    (p : Option Str) (sp : Str) (sz : Option Nat) (content : List Nat)
    (hf : FS.lookup fs l = some (.file content)) :
    dget? (mkScanLocation ext fs l md c p sp sz).metadata "sha256" =
      some (.vStr (sha256Hex content)) := by
  rw [mkScanLocation_file ext fs l md c p sp sz content hf]
  show dget? (importsStep ext l (mimeStep ext l
    (computeHashesMeta content (postInitCore l sp p md)))) "sha256" = _
  rw [dget?_importsStep_ne _ _ _ _ (by decide), dget?_mimeStep_ne _ _ _ _ (by decide),
      dget?_computeHashesMeta_sha256]

theorem dget?_mk_file_sha512 (ext : Externals) (fs : FS) (l : Str) (md : Dict) (c : Bool)
    (p : Option Str) (sp : Str) (sz : Option Nat) (content : List Nat)
    (hf : FS.lookup fs l = some (.file content)) :
    dget? (mkScanLocation ext fs l md c p sp sz).metadata "sha512" =
      some (.vStr (sha512Hex content)) := by
  rw [mkScanLocation_file ext fs l md c p sp sz content hf]
  show dget? (importsStep ext l (mimeStep ext l
    (computeHashesMeta content (postInitCore l sp p md)))) "sha512" = _
  rw [dget?_importsStep_ne _ _ _ _ (by decide), dget?_mimeStep_ne _ _ _ _ (by decide),
      dget?_computeHashesMeta_sha512]

theorem dget?_mk_file_tlsh (ext : Externals) (fs : FS) (l : Str) (md : Dict) (c : Bool)
    (p : Option Str) (sp : Str) (sz : Option Nat) (content : List Nat)
    (hf : FS.lookup fs l = some (.file content)) :
    dget? (mkScanLocation ext fs l md c p sp sz).metadata "tlsh" =
      (if content.length < 256 then dget? md "tlsh"
       else some (.vStr (tlshHex content))) := by
  rw [mkScanLocation_file ext fs l md c p sp sz content hf]
  show dget? (importsStep ext l (mimeStep ext l
    (computeHashesMeta content (postInitCore l sp p md)))) "tlsh" = _
  rw [dget?_importsStep_ne _ _ _ _ (by decide), dget?_mimeStep_ne _ _ _ _ (by decide),
      dget?_computeHashesMeta_tlsh]
  by_cases hlen : content.length < 256
  · rw [if_pos hlen, if_pos hlen, dget?_postInitCore_ne _ _ _ _ _ (by decide)]
  · rw [if_neg hlen, if_neg hlen]

theorem mk_size_file (ext : Externals) (fs : FS) (l : Str) (md : Dict) (c : Bool)
    (p : Option Str) (sp : Str) (sz : Option Nat) (content : List Nat)
    (hf : FS.lookup fs l = some (.file content)) :
    (mkScanLocation ext fs l md c p sp sz).size = some content.length := by
  rw [mkScanLocation_file ext fs l md c p sp sz content hf]

/-- C5 counterexample: a directory location can carry digest fields.  The
parent `locFile5` is a file whose digests were computed at construction;
its default `create_child` to the directory path `d` deep-copies the
metadata and only pops `mime`/`interpreter_path`/`interpreter_name`, so the
child — a directory — still carries the parent's `md5` and `sha256` keys. -/
theorem dir_carries_digests_counterexample :
    FS.isDir fs5 (chars "d") = true ∧
    child5?.map ScanLocation.location = some (chars "d") ∧
    child5?.map (fun c => (dget? c.metadata "md5").isSome) = some true ∧
    child5?.map (fun c => (dget? c.metadata "sha256").isSome) = some true := by
  decide

/-- C5 (amended): for every `ScanLocation` constructed from an existing
file, the four digests are computed at construction, in one streaming pass
over 4096-byte chunks, and stored in metadata as all-hexadecimal strings of
exactly 32, 40, 64 and 128 characters, with the size recorded; construction
of a non-file location adds none of the fingerprint fields (`md5`, `sha1`,
`sha256`, `sha512`, `tlsh`, `mime`) and keeps the supplied `size` — but a
directory location may still carry digest keys already present in the
caller-supplied metadata, e.g. inherited through `create_child`'s deep copy
(see the counterexample). -/
theorem fingerprint_fields (ext : Externals) (fs : FS) (lf ld : Str)
    (mdf mdd : Dict) (cf cd : Bool) (pf pd : Option Str) (spf spd : Str)
    (szf szd : Option Nat) (content : List Nat)
    (hf : FS.lookup fs lf = some (.file content))
    (hd : FS.isFile fs ld = false) :
    dget? (mkScanLocation ext fs lf mdf cf pf spf szf).metadata "md5" =
      some (.vStr (md5Hex content)) ∧
    (md5Hex content).length = 32 ∧ isHexStr (md5Hex content) = true ∧
    dget? (mkScanLocation ext fs lf mdf cf pf spf szf).metadata "sha1" =
      some (.vStr (sha1Hex content)) ∧
    (sha1Hex content).length = 40 ∧ isHexStr (sha1Hex content) = true ∧
    dget? (mkScanLocation ext fs lf mdf cf pf spf szf).metadata "sha256" =
      some (.vStr (sha256Hex content)) ∧
    (sha256Hex content).length = 64 ∧ isHexStr (sha256Hex content) = true ∧
    dget? (mkScanLocation ext fs lf mdf cf pf spf szf).metadata "sha512" =
      some (.vStr (sha512Hex content)) ∧
    (sha512Hex content).length = 128 ∧ isHexStr (sha512Hex content) = true ∧
    (mkScanLocation ext fs lf mdf cf pf spf szf).size = some content.length ∧
    dget? (mkScanLocation ext fs ld mdd cd pd spd szd).metadata "md5" = dget? mdd "md5" ∧
    dget? (mkScanLocation ext fs ld mdd cd pd spd szd).metadata "sha1" = dget? mdd "sha1" ∧
    dget? (mkScanLocation ext fs ld mdd cd pd spd szd).metadata "sha256" =
      dget? mdd "sha256" ∧
    dget? (mkScanLocation ext fs ld mdd cd pd spd szd).metadata "sha512" =
      dget? mdd "sha512" ∧
    dget? (mkScanLocation ext fs ld mdd cd pd spd szd).metadata "tlsh" = dget? mdd "tlsh" ∧
    dget? (mkScanLocation ext fs ld mdd cd pd spd szd).metadata "mime" = dget? mdd "mime" ∧
    (mkScanLocation ext fs ld mdd cd pd spd szd).size = szd := by
  have hnonfile := mkScanLocation_nonfile ext fs ld mdd cd pd spd szd hd
  refine ⟨dget?_mk_file_md5 ext fs lf mdf cf pf spf szf content hf,
    natToHex_length _ _, isHexStr_natToHex _ _,
    dget?_mk_file_sha1 ext fs lf mdf cf pf spf szf content hf,
    natToHex_length _ _, isHexStr_natToHex _ _,
    dget?_mk_file_sha256 ext fs lf mdf cf pf spf szf content hf,
    natToHex_length _ _, isHexStr_natToHex _ _,
    dget?_mk_file_sha512 ext fs lf mdf cf pf spf szf content hf,
    natToHex_length _ _, isHexStr_natToHex _ _,
    mk_size_file ext fs lf mdf cf pf spf szf content hf, ?_, ?_, ?_, ?_, ?_, ?_, ?_⟩ <;>
    rw [hnonfile]
  · exact dget?_postInitCore_ne _ _ _ _ _ (by decide)
  · exact dget?_postInitCore_ne _ _ _ _ _ (by decide)
  · exact dget?_postInitCore_ne _ _ _ _ _ (by decide)
  · exact dget?_postInitCore_ne _ _ _ _ _ (by decide)
  · exact dget?_postInitCore_ne _ _ _ _ _ (by decide)
  · exact dget?_postInitCore_ne _ _ _ _ _ (by decide)

/-- C5 witness: the amended fingerprint law on the concrete filesystem
`fs5`, with file `f.zip` and directory `d`. -/
theorem fingerprint_fields_witness :
    dget? (mkScanLocation ext0 fs5 (chars "f.zip") [("depth", .vNat 0)] false none []
        none).metadata "md5" = some (.vStr (md5Hex [10, 20, 30])) ∧
    (md5Hex [10, 20, 30]).length = 32 ∧ isHexStr (md5Hex [10, 20, 30]) = true ∧
    dget? (mkScanLocation ext0 fs5 (chars "f.zip") [("depth", .vNat 0)] false none []
        none).metadata "sha1" = some (.vStr (sha1Hex [10, 20, 30])) ∧
    (sha1Hex [10, 20, 30]).length = 40 ∧ isHexStr (sha1Hex [10, 20, 30]) = true ∧
    dget? (mkScanLocation ext0 fs5 (chars "f.zip") [("depth", .vNat 0)] false none []
        none).metadata "sha256" = some (.vStr (sha256Hex [10, 20, 30])) ∧
    (sha256Hex [10, 20, 30]).length = 64 ∧ isHexStr (sha256Hex [10, 20, 30]) = true ∧
    dget? (mkScanLocation ext0 fs5 (chars "f.zip") [("depth", .vNat 0)] false none []
        none).metadata "sha512" = some (.vStr (sha512Hex [10, 20, 30])) ∧
    (sha512Hex [10, 20, 30]).length = 128 ∧ isHexStr (sha512Hex [10, 20, 30]) = true ∧
    (mkScanLocation ext0 fs5 (chars "f.zip") [("depth", .vNat 0)] false none []
        none).size = some ([10, 20, 30] : List Nat).length ∧
    dget? (mkScanLocation ext0 fs5 (chars "d") [("depth", .vNat 1)] false none []
        none).metadata "md5" = dget? [("depth", .vNat 1)] "md5" ∧
    dget? (mkScanLocation ext0 fs5 (chars "d") [("depth", .vNat 1)] false none []
        none).metadata "sha1" = dget? [("depth", .vNat 1)] "sha1" ∧
    dget? (mkScanLocation ext0 fs5 (chars "d") [("depth", .vNat 1)] false none []
        none).metadata "sha256" = dget? [("depth", .vNat 1)] "sha256" ∧
    dget? (mkScanLocation ext0 fs5 (chars "d") [("depth", .vNat 1)] false none []
        none).metadata "sha512" = dget? [("depth", .vNat 1)] "sha512" ∧
    dget? (mkScanLocation ext0 fs5 (chars "d") [("depth", .vNat 1)] false none []
        none).metadata "tlsh" = dget? [("depth", .vNat 1)] "tlsh" ∧
    dget? (mkScanLocation ext0 fs5 (chars "d") [("depth", .vNat 1)] false none []
        none).metadata "mime" = dget? [("depth", .vNat 1)] "mime" ∧
    (mkScanLocation ext0 fs5 (chars "d") [("depth", .vNat 1)] false none []
        none).size = none :=
  fingerprint_fields ext0 fs5 (chars "f.zip") (chars "d") [("depth", .vNat 0)]
    [("depth", .vNat 1)] false false none none [] [] none none [10, 20, 30]
    (by decide) (by decide)

/-- C6: fuzzy-hash computation is skipped, without error, for a file smaller
than 256 bytes — the location is still constructed, the four digests are
stored and no `tlsh` key appears (when the supplied metadata carried none) —
while for a file of at least 256 bytes the `tlsh` entry is a non-empty
(70-character) string. -/
theorem tlsh_skip_small (ext : Externals) (fs : FS) (lS lB : Str) (mdS mdB : Dict)
    (cS cB : Bool) (pS pB : Option Str) (spS spB : Str) (szS szB : Option Nat)
    (contentS contentB : List Nat)
    (hfS : FS.lookup fs lS = some (.file contentS))
    (hfB : FS.lookup fs lB = some (.file contentB))
    (h0S : dget? mdS "tlsh" = none)
    (hlenS : contentS.length < 256)
    (hlenB : 256 ≤ contentB.length) :
    dget? (mkScanLocation ext fs lS mdS cS pS spS szS).metadata "tlsh" = none ∧
    dget? (mkScanLocation ext fs lS mdS cS pS spS szS).metadata "md5" =
      some (.vStr (md5Hex contentS)) ∧
    dget? (mkScanLocation ext fs lS mdS cS pS spS szS).metadata "sha1" =
      some (.vStr (sha1Hex contentS)) ∧
    dget? (mkScanLocation ext fs lS mdS cS pS spS szS).metadata "sha256" =
      some (.vStr (sha256Hex contentS)) ∧
    dget? (mkScanLocation ext fs lS mdS cS pS spS szS).metadata "sha512" =
      some (.vStr (sha512Hex contentS)) ∧
    dget? (mkScanLocation ext fs lB mdB cB pB spB szB).metadata "tlsh" =
      some (.vStr (tlshHex contentB)) ∧
    (tlshHex contentB).length = 70 ∧
    tlshHex contentB ≠ [] := by
  refine ⟨?_, dget?_mk_file_md5 ext fs lS mdS cS pS spS szS contentS hfS,
    dget?_mk_file_sha1 ext fs lS mdS cS pS spS szS contentS hfS,
    dget?_mk_file_sha256 ext fs lS mdS cS pS spS szS contentS hfS,
    dget?_mk_file_sha512 ext fs lS mdS cS pS spS szS contentS hfS, ?_,
    natToHex_length _ _, ?_⟩
  · rw [dget?_mk_file_tlsh ext fs lS mdS cS pS spS szS contentS hfS, if_pos hlenS, h0S]
  · rw [dget?_mk_file_tlsh ext fs lB mdB cB pB spB szB contentB hfB,
      if_neg (by omega)]
  · intro hnil
    have hlen70 := natToHex_length 70 (updAll initHash contentB).tl
    rw [show tlshHex contentB = natToHex 70 (updAll initHash contentB).tl from rfl] at hnil
    rw [hnil] at hlen70
    simp at hlen70

/-- C6 witness: the fuzzy-hash law on a 100-byte file and a 10000-byte
file. -/
theorem tlsh_skip_small_witness :
    dget? (mkScanLocation ext0 fs6 (chars "small.bin") [("depth", .vNat 0)] false none []
        none).metadata "tlsh" = none ∧
    dget? (mkScanLocation ext0 fs6 (chars "small.bin") [("depth", .vNat 0)] false none []
        none).metadata "md5" = some (.vStr (md5Hex (List.replicate 100 7))) ∧
    dget? (mkScanLocation ext0 fs6 (chars "small.bin") [("depth", .vNat 0)] false none []
        none).metadata "sha1" = some (.vStr (sha1Hex (List.replicate 100 7))) ∧
    dget? (mkScanLocation ext0 fs6 (chars "small.bin") [("depth", .vNat 0)] false none []
        none).metadata "sha256" = some (.vStr (sha256Hex (List.replicate 100 7))) ∧
    dget? (mkScanLocation ext0 fs6 (chars "small.bin") [("depth", .vNat 0)] false none []
        none).metadata "sha512" = some (.vStr (sha512Hex (List.replicate 100 7))) ∧
    dget? (mkScanLocation ext0 fs6 (chars "big.bin") [("depth", .vNat 0)] false none []
        none).metadata "tlsh" = some (.vStr (tlshHex (List.replicate 10000 7))) ∧
    (tlshHex (List.replicate 10000 7)).length = 70 ∧
    tlshHex (List.replicate 10000 7) ≠ [] :=
  tlsh_skip_small ext0 fs6 (chars "small.bin") (chars "big.bin") [("depth", .vNat 0)]
    [("depth", .vNat 0)] false false none none [] [] none none
    (List.replicate 100 7) (List.replicate 10000 7) (by rfl) (by rfl) (by rfl)
    (by rw [List.length_replicate]; omega) (by rw [List.length_replicate]; omega)

theorem lookup_rmtree_self (fs : FS) (p : Str) : FS.lookup (rmtree fs p) p = none := by
  induction fs with
  | nil => rfl
  | cons e rest ih =>
    by_cases he : e.1 = p ∨ (p ++ chars "/") <+: e.1
    · rw [show rmtree (e :: rest) p = rmtree rest p from by simp [rmtree, he]]
      exact ih
    · rw [show rmtree (e :: rest) p = e :: rmtree rest p from by simp [rmtree, he]]
      have h1 : ¬ e.1 = p := fun hh => he (Or.inl hh)
      simp [FS.lookup, h1, ih]

theorem fexists_rmtree_self (fs : FS) (p : Str) :
    FS.fexists (rmtree fs p) p = false := by
  simp [FS.fexists, lookup_rmtree_self]

theorem lookup_rmtree_other (fs : FS) (p q : Str)
    (h : ¬(q = p ∨ (p ++ chars "/") <+: q)) :
    FS.lookup (rmtree fs p) q = FS.lookup fs q := by
  induction fs with
  | nil => rfl
  | cons e rest ih =>
    by_cases he : e.1 = p ∨ (p ++ chars "/") <+: e.1
    · rw [show rmtree (e :: rest) p = rmtree rest p from by simp [rmtree, he]]
      have hq : ¬ e.1 = q := fun hh => h (hh ▸ he)
      rw [ih]
      simp [FS.lookup, hq]
    · rw [show rmtree (e :: rest) p = e :: rmtree rest p from by simp [rmtree, he]]
      by_cases hq : e.1 = q
      · simp [FS.lookup, hq]
      · simp [FS.lookup, hq, ih]

theorem fexists_rmtree_other (fs : FS) (p q : Str)
    (h : ¬(q = p ∨ (p ++ chars "/") <+: q)) :
    FS.fexists (rmtree fs p) q = FS.fexists fs q := by
  simp [FS.fexists, lookup_rmtree_other fs p q h]

/-- C4: with location A flagged for cleanup (path existing) and location B
unflagged, the cleanup pass removes exactly A's path tree (so B's path — not
below A — is untouched), and running the pass a second time deletes nothing
further and encounters no missing-path error: the already-deleted path fails
the existence guard, so the deletion is never re-attempted. -/
theorem cleanup_locations_spec (A B : ScanLocation) (fs : FS)
    (hA : A.cleanup = true) (hB : B.cleanup = false)
    (hEx : FS.fexists fs A.location = true)
    (hBsep : ¬(B.location = A.location ∨
      (A.location ++ chars "/") <+: B.location)) :
    (cleanup_locations ⟨[A, B], [A.location], fs⟩).fs = rmtree fs A.location ∧
    FS.fexists (cleanup_locations ⟨[A, B], [A.location], fs⟩).fs A.location = false ∧
    FS.fexists (cleanup_locations ⟨[A, B], [A.location], fs⟩).fs B.location =
      FS.fexists fs B.location ∧
    cleanup_locations (cleanup_locations ⟨[A, B], [A.location], fs⟩) =
      cleanup_locations ⟨[A, B], [A.location], fs⟩ := by
  have h1 : cleanupStep ([A.location], fs) A = ([], rmtree fs A.location) := by
    simp [cleanupStep, hA, hEx, scontains, serase]
  have h2 : cleanupStep ([], rmtree fs A.location) B = ([], rmtree fs A.location) := by
    simp [cleanupStep, hB]
  have hstep : cleanup_locations ⟨[A, B], [A.location], fs⟩ =
      ⟨[A, B], [], rmtree fs A.location⟩ := by
    simp only [cleanup_locations, List.foldl_cons, List.foldl_nil, h1, h2]
  have h1' : cleanupStep ([], rmtree fs A.location) A = ([], rmtree fs A.location) := by
    simp [cleanupStep, hA, scontains, fexists_rmtree_self]
  have hstep2 : cleanup_locations ⟨[A, B], [], rmtree fs A.location⟩ =
      ⟨[A, B], [], rmtree fs A.location⟩ := by
    simp only [cleanup_locations, List.foldl_cons, List.foldl_nil, h1', h2]
  refine ⟨?_, ?_, ?_, ?_⟩
  · rw [hstep]
  · rw [hstep]
    exact fexists_rmtree_self fs A.location
  · rw [hstep]
    exact fexists_rmtree_other fs A.location B.location hBsep
  · rw [hstep, hstep2]

/-- C4 witness: the cleanup law on the concrete locations `/t/a` (flagged,
with a file below it) and `/t/b` (unflagged). -/
theorem cleanup_locations_spec_witness :
    (cleanup_locations ⟨[locA4, locB4], [locA4.location], fs4⟩).fs =
      rmtree fs4 locA4.location ∧
    FS.fexists (cleanup_locations ⟨[locA4, locB4], [locA4.location], fs4⟩).fs
      locA4.location = false ∧
    FS.fexists (cleanup_locations ⟨[locA4, locB4], [locA4.location], fs4⟩).fs
      locB4.location = FS.fexists fs4 locB4.location ∧
    cleanup_locations (cleanup_locations ⟨[locA4, locB4], [locA4.location], fs4⟩) =
      cleanup_locations ⟨[locA4, locB4], [locA4.location], fs4⟩ :=
  cleanup_locations_spec locA4 locB4 fs4 (by rfl) (by rfl) (by rfl) (by decide)

theorem postOne_tags (loc : ScanLocation) (fl : Nat → Option Str)
    (sev : Detection → Int) (d : Detection) :
    (postOne loc fl sev d).tags = sunion d.tags (locTags loc) := by
  simp only [postOne]
  split <;> rfl

theorem postOne_location (loc : ScanLocation) (fl : Nat → Option Str)
    (sev : Detection → Int) (d : Detection) :
    (postOne loc fl sev d).location =
      some (match d.location with
            | none => strOf loc
            | some l => loc.strip l) := by
  simp only [postOne]
  split <;> rfl

theorem postOne_scan_location (loc : ScanLocation) (fl : Nat → Option Str)
    (sev : Detection → Int) (d : Detection) :
    (postOne loc fl sev d).scan_location = some (d.scan_location.getD loc) := by
  simp only [postOne]
  split <;> rfl

theorem postOne_line (loc : ScanLocation) (fl : Nat → Option Str)
    (sev : Detection → Int) (d : Detection) :
    (postOne loc fl sev d).line =
      (match d.line with
       | none => (match d.line_no with | some n => fl n | none => none)
       | some l => some l) := by
  simp only [postOne]
  split <;> rfl

theorem postOne_line_no (loc : ScanLocation) (fl : Nat → Option Str)
    (sev : Detection → Int) (d : Detection) :
    (postOne loc fl sev d).line_no = d.line_no := by
  simp only [postOne]
  split <;> rfl

theorem postOne_dmetadata (loc : ScanLocation) (fl : Nat → Option Str)
    (sev : Detection → Int) (d : Detection) :
    (postOne loc fl sev d).dmetadata = some (d.dmetadata.getD loc.metadata) := by
  simp only [postOne]
  split <;> rfl

theorem postOne_dseverity_isSome (loc : ScanLocation) (fl : Nat → Option Str)
    (sev : Detection → Int) (d : Detection) :
    ((postOne loc fl sev d).dseverity).isSome = true := by
  simp only [postOne]
  split
  · rfl
  · rename_i v heq
    rw [heq]
    rfl

theorem postOne_dseverity_some (loc : ScanLocation) (fl : Nat → Option Str)
    (sev : Detection → Int) (d : Detection) (sv : Int) (h : d.dseverity = some sv) :
    (postOne loc fl sev d).dseverity = some sv := by
  simp only [postOne]
  split
  · rename_i heq
    exact Option.noConfusion (h.symm.trans heq)
  · exact h

theorem postOne_fixed (loc : ScanLocation) (fl : Nat → Option Str)
    (sev : Detection → Int) (e : Detection)
    (htg : sunion e.tags (locTags loc) = e.tags)
    (hlo : ∃ v, e.location = some v ∧ loc.strip v = v)
    (hsl : e.scan_location.isSome = true)
    (hdm : e.dmetadata.isSome = true)
    (hdv : e.dseverity.isSome = true)
    (hli : (match e.line with
            | none => (match e.line_no with | some n => fl n | none => none)
            | some l => some l) = e.line) :
    postOne loc fl sev e = e := by
  obtain ⟨v, hv, hvs⟩ := hlo
  obtain ⟨s, hs⟩ := Option.isSome_iff_exists.mp hsl
  obtain ⟨m, hm⟩ := Option.isSome_iff_exists.mp hdm
  obtain ⟨sv, hsv⟩ := Option.isSome_iff_exists.mp hdv
  obtain ⟨msg, sig, lo, ln, li, tg, sl, dm, dv, ex⟩ := e
  dsimp only at hv hs hm hsv htg hli ⊢
  subst hv hs hm hsv
  simp [postOne, htg, hli, hvs]

theorem postOne_idem (loc : ScanLocation) (fl : Nat → Option Str)
    (sev : Detection → Int) (h : loc.strip_path = []) (d : Detection) :
    postOne loc fl sev (postOne loc fl sev d) = postOne loc fl sev d := by
  have hidem : ∀ x, loc.strip (loc.strip x) = loc.strip x := fun x =>
    stripFn_idem_of loc.strip_path loc.parent x (Or.inl h)
  apply postOne_fixed
  · rw [postOne_tags]
    exact sunion_absorb _ _
  · rw [postOne_location]
    refine ⟨_, rfl, ?_⟩
    cases hd : d.location
    · exact hidem loc.location
    · exact hidem _
  · rw [postOne_scan_location]
    rfl
  · rw [postOne_dmetadata]
    rfl
  · exact postOne_dseverity_isSome loc fl sev d
  · rw [postOne_line, postOne_line_no]
    cases hd : d.line
    · cases hn : d.line_no with
      | none => rfl
      | some n => cases hfl : fl n <;> simp [hfl]
    · rfl

theorem post_analysis_idem (loc : ScanLocation) (fl : Nat → Option Str)
    (sev : Detection → Int) (h : loc.strip_path = []) (ds : List Detection) :
    post_analysis loc fl sev (post_analysis loc fl sev ds) =
      post_analysis loc fl sev ds := by
  unfold post_analysis
  rw [List.map_map]
  exact List.map_congr_left (fun d _ => postOne_idem loc fl sev h d)

/-- C9 counterexample: `post_analysis` does not leave an already-set
`location` field untouched — it rewrites it through the normalizer — and
with strip prefix `"a"` a second invocation changes the batch again
(`"a/a/b"` → `"a/b"` → `"b"`), so the enrichment is not idempotent as
claimed. -/
theorem post_analysis_not_idempotent_counterexample :
    (postOne loc9 fl0 sev0 det9).location ≠ det9.location ∧
    post_analysis loc9 fl0 sev0 (post_analysis loc9 fl0 sev0 [det9]) ≠
      post_analysis loc9 fl0 sev0 [det9] := by
  decide

/-- C9 (amended): `post_analysis` sets `scan_location`, `line`, `metadata`
and `severity` only when currently absent (already-set values are kept), but
the `location` field is rewritten through the path normalizer on every
invocation; consequently a second invocation leaves every detection exactly
as after the first whenever the location's normalizer is idempotent — in
particular whenever the configured strip prefix is empty.  (The original
claim — every nullable field including `location` set only if absent, and
unconditional second-invocation stability — fails: see the
counterexample.) -/
theorem post_analysis_field_behavior (loc : ScanLocation) (fl : Nat → Option Str)
    (sev : Detection → Int) (ds : List Detection) (d : Detection)
    (h : loc.strip_path = [])
    (hsl : d.scan_location.isSome = true) (hli : d.line.isSome = true)
    (hdm : d.dmetadata.isSome = true) (hdv : d.dseverity.isSome = true) :
    (postOne loc fl sev d).scan_location = d.scan_location ∧
    (postOne loc fl sev d).line = d.line ∧
    (postOne loc fl sev d).dmetadata = d.dmetadata ∧
    (postOne loc fl sev d).dseverity = d.dseverity ∧
    post_analysis loc fl sev (post_analysis loc fl sev ds) =
      post_analysis loc fl sev ds := by
  obtain ⟨s, hs⟩ := Option.isSome_iff_exists.mp hsl
  obtain ⟨l, hl⟩ := Option.isSome_iff_exists.mp hli
  obtain ⟨m, hm⟩ := Option.isSome_iff_exists.mp hdm
  obtain ⟨sv, hsv⟩ := Option.isSome_iff_exists.mp hdv
  refine ⟨?_, ?_, ?_, ?_, post_analysis_idem loc fl sev h ds⟩
  · rw [postOne_scan_location, hs]
    rfl
  · rw [postOne_line, hl]
  · rw [postOne_dmetadata, hm]
    rfl
  · rw [postOne_dseverity_some loc fl sev d sv hsv, hsv]

/-- C9 witness: the amended enrichment law at a concrete empty-strip
location, a fully-set detection and a singleton batch. -/
theorem post_analysis_field_behavior_witness :
    (postOne loc9e fl0 sev0 det9full).scan_location = det9full.scan_location ∧
    (postOne loc9e fl0 sev0 det9full).line = det9full.line ∧
    (postOne loc9e fl0 sev0 det9full).dmetadata = det9full.dmetadata ∧
    (postOne loc9e fl0 sev0 det9full).dseverity = det9full.dseverity ∧
    post_analysis loc9e fl0 sev0 (post_analysis loc9e fl0 sev0 [det9full]) =
      post_analysis loc9e fl0 sev0 [det9full] :=
  post_analysis_field_behavior loc9e fl0 sev0 [det9full] det9full (by rfl) (by rfl)
    (by rfl) (by rfl) (by rfl)
